import Mathlib

/-!
Verification of the grid-layout and image-fitting core of the PPTGenerator
repository (src/app.py and src/ppt_generator.py).

Embedding conventions:
* Python ints are modelled by ℤ (or by ℕ where the source value is a count
  or a list index), the inch-based float arithmetic of app.py by ℚ, and
  PIL pixel arithmetic by ℤ with Python floor division (//) modelled by
  Int.fdiv.
* Fallible code (ZeroDivisionError, a per-image decode or placement
  failure) is modelled with Except / Option.
-/

namespace PPT

/-- Error kinds observable in the two generation paths.  The spec also
names an InvalidInput error, which the code never raises; it is included
in the type so that statements can distinguish it from what the code
actually does. -/
inductive PErr where
  | zeroDivision
  | decodeFailure
  | invalidInput
deriving DecidableEq, Repr

/-- An image as seen by the layout code: native pixel dimensions plus a
flag recording whether decoding/placing it succeeds (app.py lines 184-192
try/except; ppt_generator.py line 30 Image.open). -/
structure Img where
  w : ℕ
  h : ℕ
  ok : Bool
deriving DecidableEq, Repr

/-- A rectangle on the inch-based app.py path: left, top, width, height. -/
structure Box where
  left : ℚ
  top : ℚ
  width : ℚ
  height : ℚ
deriving DecidableEq, Repr

/-- ppt_generator.py line 7. -/
def SLIDE_WIDTH : ℤ := 1920

/-- ppt_generator.py line 8. -/
def SLIDE_HEIGHT : ℤ := 1080

/-- ppt_generator.py line 9. -/
def MARGIN : ℤ := 20

/-- ppt_generator.py line 13: cols = math.ceil(math.sqrt(n)); the real
square root is modelled exactly through Nat.sqrt. -/
def colsSquare (n : ℕ) : ℕ :=
  if Nat.sqrt n * Nat.sqrt n = n then Nat.sqrt n else Nat.sqrt n + 1

/-- ppt_generator.py line 14: rows = math.ceil(n / cols). -/
def rowsSquare (n : ℕ) : ℕ := (n + colsSquare n - 1) / colsSquare n

/-- ppt_generator.py line 16; Python // is floor division. -/
def cell_w (n : ℕ) : ℤ :=
  (SLIDE_WIDTH - ((colsSquare n : ℤ) + 1) * MARGIN).fdiv (colsSquare n)

/-- ppt_generator.py line 17. -/
def cell_h (n : ℕ) : ℤ :=
  (SLIDE_HEIGHT - ((rowsSquare n : ℤ) + 1) * MARGIN).fdiv (rowsSquare n)

/-- Rounding helper of PIL Image.thumbnail in the branch that recomputes
the width: round y*aspect to its floor or ceiling, whichever gives an
aspect closer to the target (the floor on ties), clamped to at least 1.
Pillow computes with floats; the embedding uses exact rationals. -/
def round_aspect_w (y : ℤ) (aspect : ℚ) : ℤ :=
  max (if |aspect - (⌊(y : ℚ) * aspect⌋ : ℚ) / (y : ℚ)| ≤
          |aspect - (⌈(y : ℚ) * aspect⌉ : ℚ) / (y : ℚ)|
       then ⌊(y : ℚ) * aspect⌋ else ⌈(y : ℚ) * aspect⌉) 1

/-- Rounding helper of PIL Image.thumbnail in the branch that recomputes
the height: as round_aspect_w but the key treats 0 specially. -/
def round_aspect_h (x : ℤ) (aspect : ℚ) : ℤ :=
  max (if (if ⌊(x : ℚ) / aspect⌋ = 0 then 0 else
            |aspect - (x : ℚ) / ((⌊(x : ℚ) / aspect⌋ : ℤ) : ℚ)|) ≤
          (if ⌈(x : ℚ) / aspect⌉ = 0 then 0 else
            |aspect - (x : ℚ) / ((⌈(x : ℚ) / aspect⌉ : ℤ) : ℚ)|)
       then ⌊(x : ℚ) / aspect⌋ else ⌈(x : ℚ) / aspect⌉) 1

/-- PIL Image.thumbnail((x, y)) applied to a w×h image (ppt_generator.py
line 31), returning the resulting (width, height): if the image already
fits the target box it is returned unchanged (thumbnail never upscales);
otherwise the aspect ratio is preserved up to rounding, one axis being
set to the target and the other rounded. -/
def thumbnail (w h : ℕ) (x y : ℤ) : ℤ × ℤ :=
  if (w : ℤ) ≤ x ∧ (h : ℤ) ≤ y then ((w : ℤ), (h : ℤ))
  else if (w : ℚ) / (h : ℚ) ≤ (x : ℚ) / (y : ℚ) then
    (round_aspect_w y ((w : ℚ) / (h : ℚ)), y)
  else
    (x, round_aspect_h x ((w : ℚ) / (h : ℚ)))

/-- Cell origin abscissa for column c in create_canvas (ppt_generator.py
lines 21, 25, 37: x starts at MARGIN and advances by cell_w + MARGIN per
column). -/
def canvas_cell_x (n c : ℕ) : ℤ := MARGIN + (c : ℤ) * (cell_w n + MARGIN)

/-- Cell origin ordinate for row r (ppt_generator.py lines 21, 40). -/
def canvas_cell_y (n r : ℕ) : ℤ := MARGIN + (r : ℤ) * (cell_h n + MARGIN)

/-- Placement computed by create_canvas for the image at list index idx
(ppt_generator.py lines 30-36): the image lands in row idx / cols and
column idx % cols, is thumbnail-scaled, and pasted centred with Python
floor division.  Result: ((paste_x, paste_y), (width, height)). -/
def canvas_fit (n idx w h : ℕ) : (ℤ × ℤ) × (ℤ × ℤ) :=
  ((canvas_cell_x n (idx % colsSquare n) +
      (cell_w n - (thumbnail w h (cell_w n) (cell_h n)).1).fdiv 2,
    canvas_cell_y n (idx / colsSquare n) +
      (cell_h n - (thumbnail w h (cell_w n) (cell_h n)).2).fdiv 2),
   thumbnail w h (cell_w n) (cell_h n))

/-- app.py lines 166-171: the threshold row policy. -/
def rowsApp (n : ℕ) : ℕ := if n ≤ 4 then 2 else if n ≤ 9 then 3 else 4

/-- app.py line 172: cols_grid = (num_imgs + rows - 1) // rows. -/
def cols_grid (n : ℕ) : ℕ := (n + rowsApp n - 1) / rowsApp n

/-- app.py line 174. -/
def max_width : ℚ := 9

/-- app.py line 175. -/
def max_height : ℚ := 13 / 2

/-- app.py line 176: img_width = max_width / cols_grid. -/
def img_width (n : ℕ) : ℚ := max_width / (cols_grid n : ℚ)

/-- app.py line 177. -/
def img_height (n : ℕ) : ℚ := max_height / (rowsApp n : ℚ)

/-- The uniform grid cell holding list index idx on the app.py path:
column idx % cols_grid, row idx // cols_grid (app.py lines 180-181), the
cells tiling the 9.0 × 6.5 layout area from the origin. -/
def appCellBox (n idx : ℕ) : Box :=
  ⟨(idx % cols_grid n : ℕ) * img_width n, (idx / cols_grid n : ℕ) * img_height n,
   img_width n, img_height n⟩

/-- app.py lines 182-190: the picture is added at
left = col*img_width + 0.15, top = row*img_height + 0.3, with explicit
width = img_width - 0.3 and height = img_height - 0.3. -/
def appPlacement (n idx : ℕ) : Box :=
  ⟨(idx % cols_grid n : ℕ) * img_width n + 3 / 20,
   (idx / cols_grid n : ℕ) * img_height n + 3 / 10,
   img_width n - 3 / 10, img_height n - 3 / 10⟩

/-- Final rendered box for an image with native size nw×nh on the app.py
path: add_picture called with both width and height stretches the image
to exactly that box, so the result does not depend on nw and nh. -/
def appFit (n idx nw nh : ℕ) : Box := appPlacement n idx

/-- Per-image loop of app.py lines 179-192 starting at index idx: a
failing add_picture is caught by the try/except, a warning is shown and
that slot stays empty (none); the loop continues with the next image. -/
def appLoop (n : ℕ) : ℕ → List Img → List (Option Box)
  | _, [] => []
  | idx, img :: rest =>
    (if img.ok then some (appPlacement n idx) else none) :: appLoop n (idx + 1) rest

/-- One slide of the app.py generation loop (lines 162-192): the division
max_width / cols_grid raises ZeroDivisionError when cols_grid = 0 (which
happens exactly for an empty group); that division sits outside the
per-image try/except, so it is an error of the whole call. -/
def appSlide (g : List Img) : Except PErr (List (Option Box)) :=
  if cols_grid g.length = 0 then .error .zeroDivision
  else .ok (appLoop g.length 0 g)

/-- app.py document loop over the slide groups: an uncaught exception in
any group aborts the whole generation. -/
def appGenerate : List (List Img) → Except PErr (List (List (Option Box)))
  | [] => .ok []
  | g :: gs =>
    match appSlide g with
    | .error e => .error e
    | .ok s =>
      match appGenerate gs with
      | .error e => .error e
      | .ok rest => .ok (s :: rest)

/-- Per-image loop of create_canvas (ppt_generator.py lines 24-38) from
index idx on: Image.open of an undecodable image raises and there is no
handler, so the first bad image aborts the whole call. -/
def canvasLoop (n : ℕ) : ℕ → List Img → Except PErr (List ((ℤ × ℤ) × (ℤ × ℤ)))
  | _, [] => .ok []
  | idx, img :: rest =>
    if img.ok then
      match canvasLoop n (idx + 1) rest with
      | .error e => .error e
      | .ok others => .ok (canvas_fit n idx img.w img.h :: others)
    else .error .decodeFailure

/-- create_canvas (ppt_generator.py lines 11-42): rows = math.ceil(n /
cols) divides by zero when cols = 0, that is when the list is empty. -/
def create_canvas (g : List Img) : Except PErr (List ((ℤ × ℤ) × (ℤ × ℤ))) :=
  if colsSquare g.length = 0 then .error .zeroDivision
  else canvasLoop g.length 0 g

/-- generate_ppt (ppt_generator.py lines 45-91): folders without images
are skipped; an exception from create_canvas propagates and aborts. -/
def generate_ppt : List (List Img) → Except PErr (List (List ((ℤ × ℤ) × (ℤ × ℤ))))
  | [] => .ok []
  | g :: gs =>
    if g.isEmpty then generate_ppt gs
    else
      match create_canvas g with
      | .error e => .error e
      | .ok s =>
        match generate_ppt gs with
        | .error e => .error e
        | .ok rest => .ok (s :: rest)

/-- The same image list with every decode/placement marked successful. -/
def allOk (g : List Img) : List Img := g.map fun im => ⟨im.w, im.h, true⟩

/-- Modelled from the spec: spec section 4.2 resolution substitution,
"if the source reports ≤1, substitute a default of 96".  No dpi handling
exists anywhere in src/ (app.py passes a fixed width and height to
add_picture; ppt_generator.py works directly in pixels), so it is
modelled from the spec's words. -/
def subDpi (dpi : ℚ) : ℚ := if dpi ≤ 1 then 96 else dpi

/-- Modelled from the spec: the Cell Fitter of spec section 4.2, absent
from src/: convert native pixels to linear units by dividing by the
(substituted) dpi, take the minimum of the two axis scale factors, apply
it to both axes and centre the result in the cell.  A division by zero
(the "division blow-up" the spec guards against) is rendered as none. -/
def fit (cell : Box) (nw nh dpi : ℚ) : Option Box :=
  if subDpi dpi = 0 then none
  else if nw / subDpi dpi = 0 ∨ nh / subDpi dpi = 0 then none
  else
    some ⟨cell.left + (cell.width -
            min (cell.width / (nw / subDpi dpi)) (cell.height / (nh / subDpi dpi)) *
              (nw / subDpi dpi)) / 2,
          cell.top + (cell.height -
            min (cell.width / (nw / subDpi dpi)) (cell.height / (nh / subDpi dpi)) *
              (nh / subDpi dpi)) / 2,
          min (cell.width / (nw / subDpi dpi)) (cell.height / (nh / subDpi dpi)) *
            (nw / subDpi dpi),
          min (cell.width / (nw / subDpi dpi)) (cell.height / (nh / subDpi dpi)) *
            (nh / subDpi dpi)⟩

/-! Helper lemmas. -/

lemma if_mem {c : Prop} [Decidable c] (fl ce : ℤ) :
    (if c then fl else ce) = fl ∨ (if c then fl else ce) = ce := by
  split_ifs
  · exact Or.inl rfl
  · exact Or.inr rfl

lemma clamp_best_near (num : ℚ) (h0 : 0 < num) (b : ℤ)
    (hb : b = ⌊num⌋ ∨ b = ⌈num⌉) : |((max b 1 : ℤ) : ℚ) - num| < 1 := by
  have hfl1 : (⌊num⌋ : ℚ) ≤ num := Int.floor_le num
  have hfl2 : num < ⌊num⌋ + 1 := Int.lt_floor_add_one num
  have hce1 : num ≤ (⌈num⌉ : ℚ) := Int.le_ceil num
  have hce2 : (⌈num⌉ : ℚ) < num + 1 := Int.ceil_lt_add_one num
  rcases le_or_lt 1 b with h1 | h1
  · rw [max_eq_left h1, abs_sub_lt_iff]
    rcases hb with rfl | rfl
    · exact ⟨by linarith, by linarith⟩
    · exact ⟨by linarith, by linarith⟩
  · have hb0 : b ≤ 0 := by omega
    rw [max_eq_right (by omega : b ≤ 1)]
    have hnum2 : num < 2 := by
      rcases hb with rfl | rfl
      · have hq : ((⌊num⌋ : ℤ) : ℚ) ≤ 0 := by exact_mod_cast hb0
        linarith
      · exact absurd (Int.ceil_pos.mpr h0) (not_lt.mpr hb0)
    rw [abs_sub_lt_iff]
    constructor
    · push_cast
      linarith
    · push_cast
      linarith

lemma clamp_best_le {c : Prop} [Decidable c] (fl ce z : ℤ)
    (hfl : fl ≤ z) (hce : ce ≤ z) (hz : 1 ≤ z) :
    max (if c then fl else ce) 1 ≤ z := by
  split_ifs <;> omega

lemma round_aspect_w_near (y : ℤ) (a : ℚ) (h0 : 0 < (y : ℚ) * a) :
    |((round_aspect_w y a : ℤ) : ℚ) - (y : ℚ) * a| < 1 := by
  unfold round_aspect_w
  exact clamp_best_near _ h0 _ (if_mem _ _)

lemma round_aspect_h_near (x : ℤ) (a : ℚ) (h0 : 0 < (x : ℚ) / a) :
    |((round_aspect_h x a : ℤ) : ℚ) - (x : ℚ) / a| < 1 := by
  unfold round_aspect_h
  exact clamp_best_near _ h0 _ (if_mem _ _)

lemma round_aspect_w_le (y x : ℤ) (a : ℚ) (hya : (y : ℚ) * a ≤ (x : ℚ)) (hx : 1 ≤ x) :
    round_aspect_w y a ≤ x := by
  have hce : ⌈(y : ℚ) * a⌉ ≤ x := Int.ceil_le.mpr hya
  have hfl : ⌊(y : ℚ) * a⌋ ≤ x := le_trans (Int.floor_le_ceil _) hce
  unfold round_aspect_w
  exact clamp_best_le _ _ _ hfl hce hx

lemma round_aspect_h_le (x y : ℤ) (a : ℚ) (hxa : (x : ℚ) / a ≤ (y : ℚ)) (hy : 1 ≤ y) :
    round_aspect_h x a ≤ y := by
  have hce : ⌈(x : ℚ) / a⌉ ≤ y := Int.ceil_le.mpr hxa
  have hfl : ⌊(x : ℚ) / a⌋ ≤ y := le_trans (Int.floor_le_ceil _) hce
  unfold round_aspect_h
  exact clamp_best_le _ _ _ hfl hce hy

lemma thumbnail_of_le (w h : ℕ) (x y : ℤ) (h1 : (w : ℤ) ≤ x) (h2 : (h : ℤ) ≤ y) :
    thumbnail w h x y = ((w : ℤ), (h : ℤ)) := by
  unfold thumbnail
  rw [if_pos ⟨h1, h2⟩]

lemma thumbnail_le (w h : ℕ) (x y : ℤ) (hw : 1 ≤ w) (hh : 1 ≤ h) (hx : 1 ≤ x) (hy : 1 ≤ y) :
    (thumbnail w h x y).1 ≤ x ∧ (thumbnail w h x y).2 ≤ y := by
  have hwq : (0 : ℚ) < (w : ℚ) := by exact_mod_cast hw
  have hhq : (0 : ℚ) < (h : ℚ) := by exact_mod_cast hh
  have hyq : (0 : ℚ) < ((y : ℤ) : ℚ) := by exact_mod_cast hy
  have haspect : (0 : ℚ) < (w : ℚ) / (h : ℚ) := div_pos hwq hhq
  unfold thumbnail
  split_ifs with h1 h2
  · exact ⟨h1.1, h1.2⟩
  · refine ⟨?_, le_refl y⟩
    apply round_aspect_w_le _ _ _ ?_ hx
    calc ((y : ℤ) : ℚ) * ((w : ℚ) / (h : ℚ))
        ≤ ((y : ℤ) : ℚ) * (((x : ℤ) : ℚ) / ((y : ℤ) : ℚ)) :=
          mul_le_mul_of_nonneg_left h2 (le_of_lt hyq)
      _ = ((x : ℤ) : ℚ) := by rw [mul_comm]; exact div_mul_cancel₀ _ (ne_of_gt hyq)
  · refine ⟨le_refl x, ?_⟩
    apply round_aspect_h_le _ _ _ ?_ hy
    have hlt : ((x : ℤ) : ℚ) < (w : ℚ) / (h : ℚ) * ((y : ℤ) : ℚ) :=
      (div_lt_iff₀ hyq).mp (not_le.mp h2)
    rw [div_le_iff₀ haspect]
    rw [mul_comm] at hlt
    exact le_of_lt hlt

lemma thumbnail_aspect (w h : ℕ) (x y : ℤ) (hw : 1 ≤ w) (hh : 1 ≤ h)
    (hx : 1 ≤ x) (hy : 1 ≤ y) :
    |(thumbnail w h x y).1 * (h : ℤ) - (thumbnail w h x y).2 * (w : ℤ)| <
      (w : ℤ) + (h : ℤ) := by
  have hwq : (0 : ℚ) < (w : ℚ) := by exact_mod_cast hw
  have hhq : (0 : ℚ) < (h : ℚ) := by exact_mod_cast hh
  have hyq : (0 : ℚ) < ((y : ℤ) : ℚ) := by exact_mod_cast hy
  have hxq : (0 : ℚ) < ((x : ℤ) : ℚ) := by exact_mod_cast hx
  have haspect : (0 : ℚ) < (w : ℚ) / (h : ℚ) := div_pos hwq hhq
  have hwz : (1 : ℤ) ≤ (w : ℤ) := by exact_mod_cast hw
  have hhz : (1 : ℤ) ≤ (h : ℤ) := by exact_mod_cast hh
  have hwne : (w : ℚ) ≠ 0 := ne_of_gt hwq
  have hhne : (h : ℚ) ≠ 0 := ne_of_gt hhq
  unfold thumbnail
  split_ifs with h1 h2
  · dsimp only
    have hz : (w : ℤ) * (h : ℤ) - (h : ℤ) * (w : ℤ) = 0 := by ring
    rw [hz, abs_zero]
    omega
  · dsimp only
    have hnum : (0 : ℚ) < ((y : ℤ) : ℚ) * ((w : ℚ) / (h : ℚ)) := mul_pos hyq haspect
    have hnear := round_aspect_w_near y ((w : ℚ) / (h : ℚ)) hnum
    have hrw : (((round_aspect_w y ((w : ℚ) / (h : ℚ)) : ℤ) : ℚ) -
          ((y : ℤ) : ℚ) * ((w : ℚ) / (h : ℚ))) * (h : ℚ) =
        ((round_aspect_w y ((w : ℚ) / (h : ℚ)) : ℤ) : ℚ) * (h : ℚ) -
          ((y : ℤ) : ℚ) * (w : ℚ) := by
      rw [sub_mul, mul_assoc, div_mul_cancel₀ _ hhne]
    have key : |((round_aspect_w y ((w : ℚ) / (h : ℚ)) : ℤ) : ℚ) * (h : ℚ) -
        ((y : ℤ) : ℚ) * (w : ℚ)| < (h : ℚ) := by
      rw [← hrw, abs_mul, abs_of_pos hhq]
      have hm := mul_lt_mul_of_pos_right hnear hhq
      simpa using hm
    have keyz : |round_aspect_w y ((w : ℚ) / (h : ℚ)) * (h : ℤ) - y * (w : ℤ)| <
        (h : ℤ) := by exact_mod_cast key
    exact lt_of_lt_of_le keyz (by omega)
  · dsimp only
    have hnum : (0 : ℚ) < ((x : ℤ) : ℚ) / ((w : ℚ) / (h : ℚ)) := div_pos hxq haspect
    have hnear := round_aspect_h_near x ((w : ℚ) / (h : ℚ)) hnum
    have hrw : (((round_aspect_h x ((w : ℚ) / (h : ℚ)) : ℤ) : ℚ) -
          ((x : ℤ) : ℚ) / ((w : ℚ) / (h : ℚ))) * (w : ℚ) =
        ((round_aspect_h x ((w : ℚ) / (h : ℚ)) : ℤ) : ℚ) * (w : ℚ) -
          ((x : ℤ) : ℚ) * (h : ℚ) := by
      rw [sub_mul, div_div_eq_mul_div, div_mul_cancel₀ _ hwne]
    have key : |((x : ℤ) : ℚ) * (h : ℚ) -
        ((round_aspect_h x ((w : ℚ) / (h : ℚ)) : ℤ) : ℚ) * (w : ℚ)| < (w : ℚ) := by
      rw [abs_sub_comm, ← hrw, abs_mul, abs_of_pos hwq]
      have hm := mul_lt_mul_of_pos_right hnear hwq
      simpa using hm
    have keyz : |x * (h : ℤ) - round_aspect_h x ((w : ℚ) / (h : ℚ)) * (w : ℤ)| <
        (w : ℤ) := by exact_mod_cast key
    exact lt_of_lt_of_le keyz (by omega)

lemma colsSquare_pos (n : ℕ) (hn : 1 ≤ n) : 0 < colsSquare n := by
  unfold colsSquare
  split_ifs with hs
  · rcases Nat.eq_zero_or_pos (Nat.sqrt n) with h0 | hpos
    · rw [h0] at hs
      omega
    · exact hpos
  · omega

lemma cols_grid_pos (n : ℕ) (hn : 1 ≤ n) : 0 < cols_grid n := by
  unfold cols_grid rowsApp
  split_ifs <;> omega

lemma le_mul_ceilDiv (n c : ℕ) (hc : 0 < c) : n ≤ (n + c - 1) / c * c := by
  have h1 : c * ((n + c - 1) / c) + (n + c - 1) % c = n + c - 1 := Nat.div_add_mod _ _
  have h2 : (n + c - 1) % c < c := Nat.mod_lt _ hc
  have h3 : (n + c - 1) / c * c + (n + c - 1) % c = n + c - 1 := by
    rw [mul_comm] at h1
    exact h1
  obtain ⟨P, hP⟩ : ∃ P, (n + c - 1) / c * c = P := ⟨_, rfl⟩
  rw [hP] at h3 ⊢
  omega

lemma fdiv_two_bounds (d : ℤ) : 2 * d.fdiv 2 ≤ d ∧ d ≤ 2 * d.fdiv 2 + 1 := by
  rw [Int.fdiv_eq_ediv d (by norm_num)]
  omega

lemma appSlide_ok (g : List Img) (hg : g ≠ []) :
    appSlide g = .ok (appLoop g.length 0 g) := by
  have hpos : 0 < cols_grid g.length := cols_grid_pos g.length (List.length_pos.mpr hg)
  unfold appSlide
  rw [if_neg (Nat.pos_iff_ne_zero.mp hpos)]

lemma create_canvas_cons (a : Img) (g : List Img) :
    create_canvas (a :: g) = canvasLoop (a :: g).length 0 (a :: g) := by
  have hpos : 0 < colsSquare (a :: g).length :=
    colsSquare_pos _ (Nat.succ_le_succ (Nat.zero_le g.length))
  unfold create_canvas
  rw [if_neg (Nat.pos_iff_ne_zero.mp hpos)]

lemma appGenerate_of_mem_nil (groups : List (List Img)) (hmem : [] ∈ groups) :
    appGenerate groups = .error PErr.zeroDivision := by
  induction groups with
  | nil => simp at hmem
  | cons a as ih =>
    rcases List.mem_cons.mp hmem with h | h
    · have ha : a = [] := h.symm
      subst ha
      have hs : appSlide ([] : List Img) = .error PErr.zeroDivision := rfl
      simp only [appGenerate, hs]
    · rcases eq_or_ne a [] with rfl | hne
      · have hs : appSlide ([] : List Img) = .error PErr.zeroDivision := rfl
        simp only [appGenerate, hs]
      · simp only [appGenerate, appSlide_ok a hne, ih h]

lemma appLoop_get? (n : ℕ) (g : List Img) (k i : ℕ) :
    (appLoop n k g).get? i =
      (g.get? i).map fun img => if img.ok then some (appPlacement n (k + i)) else none := by
  induction g generalizing k i with
  | nil => simp [appLoop]
  | cons a rest ih =>
    cases i with
    | zero => simp [appLoop]
    | succ j =>
      have hk : k + 1 + j = k + (j + 1) := by omega
      have hstep : appLoop n k (a :: rest) =
          (if a.ok then some (appPlacement n k) else none) :: appLoop n (k + 1) rest := rfl
      rw [hstep, List.get?_cons_succ, ih (k + 1) j, hk, List.get?_cons_succ]

/-! Claim theorems. -/

/-- C1 (counterexample): the claim that every fitted placement preserves
the native aspect ratio is false on the app.py path: a square 100×100
image placed alone on a slide is rendered 8.7 in × 2.95 in by the
add_picture call, so scaled_width·native_height differs from
scaled_height·native_width. -/
theorem c1_counterexample :
    (appFit 1 0 100 100).width * (100 : ℚ) ≠ (appFit 1 0 100 100).height * (100 : ℚ) := by
  norm_num [appFit, appPlacement, img_width, img_height, max_width, max_height,
    cols_grid, rowsApp]

/-- C1 (amended): on the create_canvas path the thumbnail-fitted placement
preserves the native aspect ratio up to the one-pixel integer rounding of
PIL: the cross difference scaled_width·native_height −
scaled_height·native_width is smaller in magnitude than
native_width + native_height.  (The app.py path stretches instead.) -/
theorem c1_aspect_amended (n idx w h : ℕ) (hw : 1 ≤ w) (hh : 1 ≤ h)
    (hcw : 1 ≤ cell_w n) (hch : 1 ≤ cell_h n) :
    |(canvas_fit n idx w h).2.1 * (h : ℤ) - (canvas_fit n idx w h).2.2 * (w : ℤ)| <
      (w : ℤ) + (h : ℤ) := by
  have hthm := thumbnail_aspect w h (cell_w n) (cell_h n) hw hh hcw hch
  simpa [canvas_fit] using hthm

/-- C1 (witness): the amended aspect bound at a concrete input: a
2000×1000 image fitted into the single 1880×1040 cell of a one-image
canvas. -/
theorem c1_aspect_witness :
    |(canvas_fit 1 0 2000 1000).2.1 * (1000 : ℤ) -
        (canvas_fit 1 0 2000 1000).2.2 * (2000 : ℤ)| < (2000 : ℤ) + 1000 :=
  c1_aspect_amended 1 0 2000 1000 (by decide) (by decide) (by decide) (by decide)

/-- C2: both grid planners cover all items: for n ≥ 1, the threshold
policy of app.py and the square policy of ppt_generator.py both return
rows and columns with rows × columns ≥ n. -/
theorem c2_plan_covers (n : ℕ) (hn : 1 ≤ n) :
    n ≤ rowsApp n * cols_grid n ∧ n ≤ rowsSquare n * colsSquare n := by
  constructor
  · unfold cols_grid rowsApp
    split_ifs <;> omega
  · unfold rowsSquare
    exact le_mul_ceilDiv n (colsSquare n) (colsSquare_pos n hn)

/-- C2 (witness): the coverage property at n = 5, the scenario from the
spec (threshold: 3 rows × 2 columns; square: 2 rows × 3 columns). -/
theorem c2_witness : 5 ≤ rowsApp 5 * cols_grid 5 ∧ 5 ≤ rowsSquare 5 * colsSquare 5 :=
  c2_plan_covers 5 (by decide)

/-- C3: containment.  On the create_canvas path, given a valid cell
(cell_w, cell_h ≥ 1) and positive native dimensions, the thumbnail-scaled
size fits the cell and the paste origin is at or after the cell origin;
on the app.py path, the placement is likewise contained in its uniform
grid cell. -/
theorem c3_containment (n idx w h : ℕ) (hw : 1 ≤ w) (hh : 1 ≤ h)
    (hcw : 1 ≤ cell_w n) (hch : 1 ≤ cell_h n) :
    (canvas_fit n idx w h).2.1 ≤ cell_w n ∧
    (canvas_fit n idx w h).2.2 ≤ cell_h n ∧
    canvas_cell_x n (idx % colsSquare n) ≤ (canvas_fit n idx w h).1.1 ∧
    canvas_cell_y n (idx / colsSquare n) ≤ (canvas_fit n idx w h).1.2 ∧
    (appPlacement n idx).width ≤ (appCellBox n idx).width ∧
    (appPlacement n idx).height ≤ (appCellBox n idx).height ∧
    (appCellBox n idx).left ≤ (appPlacement n idx).left ∧
    (appCellBox n idx).top ≤ (appPlacement n idx).top := by
  obtain ⟨hle1, hle2⟩ := thumbnail_le w h (cell_w n) (cell_h n) hw hh hcw hch
  refine ⟨by simpa [canvas_fit] using hle1, by simpa [canvas_fit] using hle2, ?_, ?_, ?_, ?_, ?_, ?_⟩
  · have hnn : 0 ≤ (cell_w n - (thumbnail w h (cell_w n) (cell_h n)).1).fdiv 2 :=
      Int.fdiv_nonneg (by omega) (by norm_num)
    simp only [canvas_fit]
    omega
  · have hnn : 0 ≤ (cell_h n - (thumbnail w h (cell_w n) (cell_h n)).2).fdiv 2 :=
      Int.fdiv_nonneg (by omega) (by norm_num)
    simp only [canvas_fit]
    omega
  · dsimp [appPlacement, appCellBox]
    linarith
  · dsimp [appPlacement, appCellBox]
    linarith
  · dsimp [appPlacement, appCellBox]
    linarith
  · dsimp [appPlacement, appCellBox]
    linarith

/-- C3 (witness): containment at a concrete input: a 100×100 image in the
single cell of a one-image canvas slide, together with the app.py cell of
index 0. -/
theorem c3_witness :
    (canvas_fit 1 0 100 100).2.1 ≤ cell_w 1 ∧
    (canvas_fit 1 0 100 100).2.2 ≤ cell_h 1 ∧
    canvas_cell_x 1 (0 % colsSquare 1) ≤ (canvas_fit 1 0 100 100).1.1 ∧
    canvas_cell_y 1 (0 / colsSquare 1) ≤ (canvas_fit 1 0 100 100).1.2 ∧
    (appPlacement 1 0).width ≤ (appCellBox 1 0).width ∧
    (appPlacement 1 0).height ≤ (appCellBox 1 0).height ∧
    (appCellBox 1 0).left ≤ (appPlacement 1 0).left ∧
    (appCellBox 1 0).top ≤ (appPlacement 1 0).top :=
  c3_containment 1 0 100 100 (by decide) (by decide) (by decide) (by decide)

/-- C4 (counterexample): vertical centering fails on the app.py path: for
a single image, the top offset inside the cell is 0.3 in, but centering
would require (cell.height − placement.height)/2 = 0.15 in. -/
theorem c4_counterexample :
    (appPlacement 1 0).top - (appCellBox 1 0).top ≠
      ((appCellBox 1 0).height - (appPlacement 1 0).height) / 2 := by
  norm_num [appPlacement, appCellBox, img_width, img_height, max_width, max_height,
    cols_grid, rowsApp]

/-- C4 (amended): on the app.py path the placement is centred exactly on
the horizontal axis only; vertically the whole slack sits above the image
(top − cell.top = cell.height − height, bottom-flush).  On the
create_canvas path the placement is centred on both axes up to the floor
rounding of Python integer division: twice the paste offset equals the
slack up to 1. -/
theorem c4_centering_amended (n idx w h : ℕ) :
    (appPlacement n idx).left - (appCellBox n idx).left =
      ((appCellBox n idx).width - (appPlacement n idx).width) / 2 ∧
    (appPlacement n idx).top - (appCellBox n idx).top =
      (appCellBox n idx).height - (appPlacement n idx).height ∧
    2 * ((canvas_fit n idx w h).1.1 - canvas_cell_x n (idx % colsSquare n)) ≤
      cell_w n - (canvas_fit n idx w h).2.1 ∧
    cell_w n - (canvas_fit n idx w h).2.1 ≤
      2 * ((canvas_fit n idx w h).1.1 - canvas_cell_x n (idx % colsSquare n)) + 1 ∧
    2 * ((canvas_fit n idx w h).1.2 - canvas_cell_y n (idx / colsSquare n)) ≤
      cell_h n - (canvas_fit n idx w h).2.2 ∧
    cell_h n - (canvas_fit n idx w h).2.2 ≤
      2 * ((canvas_fit n idx w h).1.2 - canvas_cell_y n (idx / colsSquare n)) + 1 := by
  have hx : (canvas_fit n idx w h).1.1 - canvas_cell_x n (idx % colsSquare n) =
      (cell_w n - (thumbnail w h (cell_w n) (cell_h n)).1).fdiv 2 := by
    simp [canvas_fit]
  have hy : (canvas_fit n idx w h).1.2 - canvas_cell_y n (idx / colsSquare n) =
      (cell_h n - (thumbnail w h (cell_w n) (cell_h n)).2).fdiv 2 := by
    simp [canvas_fit]
  have hdw := fdiv_two_bounds (cell_w n - (thumbnail w h (cell_w n) (cell_h n)).1)
  have hdh := fdiv_two_bounds (cell_h n - (thumbnail w h (cell_w n) (cell_h n)).2)
  have hcf1 : (canvas_fit n idx w h).2.1 = (thumbnail w h (cell_w n) (cell_h n)).1 := rfl
  have hcf2 : (canvas_fit n idx w h).2.2 = (thumbnail w h (cell_w n) (cell_h n)).2 := rfl
  refine ⟨?_, ?_, ?_, ?_, ?_, ?_⟩
  · dsimp [appPlacement, appCellBox]
    ring
  · dsimp [appPlacement, appCellBox]
    ring
  · rw [hx, hcf1]
    exact hdw.1
  · rw [hx, hcf1]
    exact hdw.2
  · rw [hy, hcf2]
    exact hdh.1
  · rw [hy, hcf2]
    exact hdh.2

/-- C5 (counterexample): a 10×10 image is strictly smaller than the
1880×1040 cell of a one-image canvas on both axes, yet thumbnail leaves
it at its native size: no axis is scaled up to fill the cell. -/
theorem c5_counterexample :
    thumbnail 10 10 (cell_w 1) (cell_h 1) = ((10 : ℤ), (10 : ℤ)) ∧
    cell_w 1 = 1880 ∧ cell_h 1 = 1040 := by
  decide

/-- C5 (amended): PIL thumbnail never upscales: whenever the image fits
the target box on both axes it is returned unchanged, so the
create_canvas fitter does not normalise small images to fill the limiting
axis.  Only the app.py path stretches every image to the fixed inset cell
box, independent of its native size. -/
theorem c5_amended (w h : ℕ) (x y : ℤ) (n idx nw nh : ℕ)
    (h1 : (w : ℤ) ≤ x) (h2 : (h : ℤ) ≤ y) :
    thumbnail w h x y = ((w : ℤ), (h : ℤ)) ∧
    (appFit n idx nw nh).width = img_width n - 3 / 10 ∧
    (appFit n idx nw nh).height = img_height n - 3 / 10 :=
  ⟨thumbnail_of_le w h x y h1 h2, rfl, rfl⟩

/-- C5 (witness): the amended statement at a concrete input: the 10×10
image in the 1880×1040 cell keeps its size while the app.py placement of
a lone 10×10 image has the fixed stretched dimensions. -/
theorem c5_witness :
    thumbnail 10 10 1880 1040 = ((10 : ℤ), (10 : ℤ)) ∧
    (appFit 1 0 10 10).width = img_width 1 - 3 / 10 ∧
    (appFit 1 0 10 10).height = img_height 1 - 3 / 10 :=
  c5_amended 10 10 1880 1040 1 0 10 10 (by decide) (by decide)

/-- C6 (counterexample): for n = 0 the app.py grid planning divides by
zero: the call fails with ZeroDivisionError, not with an InvalidInput
error, and since that division is outside the per-image try/except the
whole batch generation aborts, not just the single call. -/
theorem c6_counterexample :
    appSlide [] = .error PErr.zeroDivision ∧
    PErr.zeroDivision ≠ PErr.invalidInput ∧
    appGenerate [[⟨1, 1, true⟩], [], [⟨1, 1, true⟩]] = .error PErr.zeroDivision :=
  ⟨rfl, by decide, rfl⟩

/-- C6 (amended): the only reachable n ≤ 0 is n = 0 (n is a list length);
an empty group makes the planner raise an uncaught ZeroDivisionError
(there is no InvalidInput in the code), and any batch containing an empty
group aborts as a whole with that error. -/
theorem c6_amended (g : List Img) (groups : List (List Img)) (hg : g = [])
    (hmem : [] ∈ groups) :
    appSlide g = .error PErr.zeroDivision ∧
    appGenerate groups = .error PErr.zeroDivision := by
  constructor
  · rw [hg]
    rfl
  · exact appGenerate_of_mem_nil groups hmem

/-- C6 (witness): the amended statement at a concrete input: the empty
group and a batch whose second slide group is empty. -/
theorem c6_witness :
    appSlide [] = .error PErr.zeroDivision ∧
    appGenerate [[⟨1, 1, true⟩], []] = .error PErr.zeroDivision :=
  c6_amended [] [[⟨1, 1, true⟩], []] rfl (by simp)

/-- C7 (counterexample): on the create_canvas path a single undecodable
image aborts the whole call, and through generate_ppt the whole document:
nothing is recovered per image there. -/
theorem c7_counterexample :
    create_canvas [⟨5, 5, true⟩, ⟨5, 5, false⟩, ⟨5, 5, true⟩] = .error PErr.decodeFailure ∧
    generate_ppt [[⟨5, 5, true⟩], [⟨5, 5, true⟩, ⟨5, 5, false⟩], [⟨5, 5, true⟩]] =
      .error PErr.decodeFailure := by
  have hca : create_canvas [(⟨5, 5, true⟩ : Img)] = .ok [canvas_fit 1 0 5 5] := rfl
  have hcb : create_canvas [⟨5, 5, true⟩, ⟨5, 5, false⟩] = .error PErr.decodeFailure := by
    rw [create_canvas_cons]
    rfl
  have hcc : create_canvas [⟨5, 5, true⟩, ⟨5, 5, false⟩, ⟨5, 5, true⟩] =
      .error PErr.decodeFailure := by
    rw [create_canvas_cons]
    rfl
  refine ⟨hcc, ?_⟩
  simp only [generate_ppt, hca, hcb]
  rfl

/-- C7 (amended): on the app.py path the per-image try/except makes the
claim hold: for any batch of nonempty groups, generation succeeds with
one output slide per group, each failed image merely leaving its own slot
empty while every other image and every later slide is processed. -/
theorem c7_amended (groups : List (List Img)) (hne : ∀ g ∈ groups, g ≠ []) :
    appGenerate groups = .ok (groups.map fun g => appLoop g.length 0 g) := by
  induction groups with
  | nil => rfl
  | cons a as ih =>
    have ha : a ≠ [] := hne a (List.mem_cons_self a as)
    have hrest : ∀ g ∈ as, g ≠ [] := fun g hg => hne g (List.mem_cons_of_mem a hg)
    simp only [appGenerate, appSlide_ok a ha, ih hrest, List.map_cons]

/-- C7 (witness): the amended statement at a concrete input: a batch of
two slides where the second image of the first slide fails. -/
theorem c7_witness :
    appGenerate [[⟨1, 1, true⟩, ⟨1, 1, false⟩], [⟨2, 2, true⟩]] =
      .ok ([[⟨1, 1, true⟩, ⟨1, 1, false⟩], [⟨2, 2, true⟩]].map fun g =>
        appLoop g.length 0 g) :=
  c7_amended [[⟨1, 1, true⟩, ⟨1, 1, false⟩], [⟨2, 2, true⟩]] (by decide)

/-- C8 (counterexample): for n = 1 the threshold policy of app.py does
not return rows = 2, cols = 2: the column count is ceil(1/2) = 1. -/
theorem c8_counterexample : ¬(rowsApp 1 = 2 ∧ cols_grid 1 = 2) := by
  decide

/-- C8 (amended): for n = 1 the threshold policy returns rows = 2 and
cols = 1, and the square policy returns rows = 1 and cols = 1. -/
theorem c8_amended :
    rowsApp 1 = 2 ∧ cols_grid 1 = 1 ∧ rowsSquare 1 = 1 ∧ colsSquare 1 = 1 := by
  decide

/-- C9: spec-modelled Cell Fitter: whenever the reported dpi is ≤ 1
(including dpi = 0) and the native dimensions are positive, fit
substitutes the default of 96 dpi — the result coincides with a call at
96 dpi — and succeeds instead of hitting a division by zero. -/
theorem c9_dpi_substitution (cell : Box) (nw nh dpi : ℚ)
    (hd : dpi ≤ 1) (hw : 0 < nw) (hh : 0 < nh) :
    (fit cell nw nh dpi).isSome = true ∧ fit cell nw nh dpi = fit cell nw nh 96 := by
  have h1 : subDpi dpi = 96 := if_pos hd
  have h2 : subDpi 96 = 96 := if_neg (by norm_num)
  have hw96 : nw / subDpi dpi ≠ 0 := by
    rw [h1]
    exact div_ne_zero (ne_of_gt hw) (by norm_num)
  have hh96 : nh / subDpi dpi ≠ 0 := by
    rw [h1]
    exact div_ne_zero (ne_of_gt hh) (by norm_num)
  constructor
  · unfold fit
    rw [if_neg (by rw [h1]; norm_num), if_neg (not_or.mpr ⟨hw96, hh96⟩)]
    rfl
  · unfold fit
    rw [h1, h2]

/-- C9 (witness): the substitution at a concrete input: a 4000×3000 image
with malformed dpi = 0 fitted into a 3 in × 2 in cell. -/
theorem c9_witness :
    (fit ⟨0, 0, 3, 2⟩ 4000 3000 0).isSome = true ∧
    fit ⟨0, 0, 3, 2⟩ 4000 3000 0 = fit ⟨0, 0, 3, 2⟩ 4000 3000 96 :=
  c9_dpi_substitution ⟨0, 0, 3, 2⟩ 4000 3000 0 (by norm_num) (by norm_num) (by norm_num)

/-- C10: no re-flow on the app.py path: every successfully placed image
keeps the placement determined by its original list index (row =
index / columns, column = index % columns) whether or not other images of
the slide fail, and a failed image merely leaves its own slot empty. -/
theorem c10_no_reflow (g : List Img) (i : ℕ) (hi : i < g.length)
    (hok : (g.get ⟨i, hi⟩).ok = true) :
    ∃ s sAll, appSlide g = .ok s ∧ appSlide (allOk g) = .ok sAll ∧
      s.get? i = some (some (appPlacement g.length i)) ∧
      sAll.get? i = some (some (appPlacement g.length i)) ∧
      (appPlacement g.length i).left =
        (i % cols_grid g.length : ℕ) * img_width g.length + 3 / 20 ∧
      (appPlacement g.length i).top =
        (i / cols_grid g.length : ℕ) * img_height g.length + 3 / 10 := by
  have hne : g ≠ [] := by
    intro hnil
    subst hnil
    simp at hi
  have hne2 : allOk g ≠ [] := by
    simp only [allOk, ne_eq, List.map_eq_nil]
    exact hne
  refine ⟨_, _, appSlide_ok g hne, appSlide_ok _ hne2, ?_, ?_, rfl, rfl⟩
  · have hok2 : (g.get ⟨i, hi⟩).ok = true := hok
    rw [appLoop_get?, List.get?_eq_get hi]
    simp only [Option.map_some', hok2, if_true, Nat.zero_add]
  · have hlen : (allOk g).length = g.length := by simp [allOk]
    have hget : (allOk g).get? i = some ⟨(g.get ⟨i, hi⟩).w, (g.get ⟨i, hi⟩).h, true⟩ := by
      rw [show allOk g = g.map (fun im => ⟨im.w, im.h, true⟩) from rfl,
        List.get?_map, List.get?_eq_get hi]
      rfl
    rw [appLoop_get?, hget, hlen]
    simp

/-- C10 (witness): the no-re-flow statement at a concrete input: the
first image of a two-image slide whose second image fails. -/
theorem c10_witness :
    ∃ s sAll, appSlide [⟨1, 1, true⟩, ⟨2, 2, false⟩] = .ok s ∧
      appSlide (allOk [⟨1, 1, true⟩, ⟨2, 2, false⟩]) = .ok sAll ∧
      s.get? 0 = some (some (appPlacement 2 0)) ∧
      sAll.get? 0 = some (some (appPlacement 2 0)) ∧
      (appPlacement 2 0).left = (0 % cols_grid 2 : ℕ) * img_width 2 + 3 / 20 ∧
      (appPlacement 2 0).top = (0 / cols_grid 2 : ℕ) * img_height 2 + 3 / 10 :=
  c10_no_reflow [⟨1, 1, true⟩, ⟨2, 2, false⟩] 0 (by decide) (by decide)

end PPT
